import Mathlib

/-!
Shallow embedding of the yt-dlp gateway (crates serverrs and serverx-rs):
the XOR/base64 token codec (serverrs/src/encryption.rs), startup
configuration (serverrs/src/config.rs), the local VPN failover controller
(serverrs/src/vpn.rs), the CDN streaming proxy decision logic
(serverrs/src/stream.rs and serverx-rs/src/main.rs), the cache failure
policy (serverrs/src/cache.rs, serverx-rs/src/main.rs), and session format
resolution (serverx-rs/src/main.rs).

Byte strings are modelled as `List Nat` with every byte below 256; `u64`
arithmetic is reduced modulo `2 ^ 64` where the source could overflow.
Rust panics (remainder by zero on an empty key) are modelled by `Option`
results, with `none` standing for the panic. Wall-clock seconds are passed
explicitly (`Nat` for the codec, which uses whole seconds; `ℚ` for the VPN
controller, which uses fractional `f64` seconds).
-/

namespace YtGateway

/-! ## Token codec: serverrs/src/encryption.rs -/

/-- ASCII code of the pipe separator used between the expiry prefix and the
payload (encryption.rs lines 13 and 49). -/
def pipeByte : Nat := 124

/-- URL-safe base64 alphabet of the `base64` crate engine `URL_SAFE`
(encryption.rs lines 27 and 33): sextet index to ASCII byte. -/
def sextetChar (n : Nat) : Nat :=
  if n < 26 then 65 + n
  else if n < 52 then 97 + (n - 26)
  else if n < 62 then 48 + (n - 52)
  else if n = 62 then 45
  else 95

/-- Model of `URL_SAFE.encode` (encryption.rs line 27): canonical padded URL-safe
base64 of a byte list, three input bytes per four output characters,
with `=` (61) padding on the final chunk. -/
def b64encode : List Nat → List Nat
  | [] => []
  | [a] => [sextetChar (a / 4), sextetChar (a % 4 * 16), 61, 61]
  | [a, b] => [sextetChar (a / 4), sextetChar (a % 4 * 16 + b / 16), sextetChar (b % 16 * 4), 61]
  | a :: b :: c :: rest =>
      sextetChar (a / 4) :: sextetChar (a % 4 * 16 + b / 16) ::
        sextetChar (b % 16 * 4 + c / 64) :: sextetChar (c % 64) :: b64encode rest

/-- Inverse alphabet lookup for `URL_SAFE.decode`: `none` on a byte outside
the URL-safe base64 alphabet (including the pad byte 61). -/
def sextetVal (c : Nat) : Option Nat :=
  if 65 ≤ c ∧ c ≤ 90 then some (c - 65)
  else if 97 ≤ c ∧ c ≤ 122 then some (c - 97 + 26)
  else if 48 ≤ c ∧ c ≤ 57 then some (c - 48 + 52)
  else if c = 45 then some 62
  else if c = 95 then some 63
  else none

/-- Model of `URL_SAFE.decode` (encryption.rs line 34): canonical padded URL-safe
base64 decoding. Rejects lengths not divisible by four, bytes outside the
alphabet, padding before the final chunk, and non-zero trailing bits, as
the `base64` crate engine does. -/
def b64decode : List Nat → Option (List Nat)
  | [] => some []
  | c1 :: c2 :: c3 :: c4 :: rest =>
      match sextetVal c1, sextetVal c2 with
      | some s1, some s2 =>
          if c3 = 61 then
            if c4 = 61 ∧ rest = [] ∧ s2 % 16 = 0 then some [s1 * 4 + s2 / 16] else none
          else
            match sextetVal c3 with
            | some s3 =>
                if c4 = 61 then
                  if rest = [] ∧ s3 % 4 = 0 then
                    some [s1 * 4 + s2 / 16, s2 % 16 * 16 + s3 / 4]
                  else none
                else
                  match sextetVal c4, b64decode rest with
                  | some s4, some tail =>
                      some ([s1 * 4 + s2 / 16, s2 % 16 * 16 + s3 / 4, s3 % 4 * 64 + s4] ++ tail)
                  | _, _ => none
            | none => none
      | _, _ => none
  | _ => none

/-- Byte-wise XOR against the key cycled from index `i`
(encryption.rs lines 21-25 and 39-43): element at offset `j` is XOR-ed with
`key[(i + j) % key.length]`. Only evaluated with a non-empty key; the
callers model the empty-key panic separately. -/
def xorFrom (key : List Nat) : Nat → List Nat → List Nat
  | _, [] => []
  | i, b :: rest => (b ^^^ key.getD (i % key.length) 0) :: xorFrom key (i + 1) rest

/-- UTF-8 acceptance automaton: `utf8Run pending lo hi l` is `true` when
`l` completes a well-formed UTF-8 stream in which `pending` continuation
bytes are still owed, the next one constrained to `[lo, hi]` and any later
ones to the generic `[128, 191]`. In the start state (`pending = 0`) a
lead byte is classified by the standard well-formed UTF-8 table, which
rejects overlong forms, surrogates and code points above U+10FFFF. -/
def utf8Run : Nat → Nat → Nat → List Nat → Bool
  | 0, _, _, [] => true
  | 0, _, _, b :: rest =>
    if b < 128 then utf8Run 0 0 0 rest
    else if 194 ≤ b ∧ b ≤ 223 then utf8Run 1 128 191 rest
    else if b = 224 then utf8Run 2 160 191 rest
    else if 225 ≤ b ∧ b ≤ 236 then utf8Run 2 128 191 rest
    else if b = 237 then utf8Run 2 128 159 rest
    else if 238 ≤ b ∧ b ≤ 239 then utf8Run 2 128 191 rest
    else if b = 240 then utf8Run 3 144 191 rest
    else if 241 ≤ b ∧ b ≤ 243 then utf8Run 3 128 191 rest
    else if b = 244 then utf8Run 3 128 143 rest
    else false
  | _ + 1, _, _, [] => false
  | k + 1, lo, hi, b :: rest =>
    if lo ≤ b ∧ b ≤ hi then utf8Run k 128 191 rest else false

/-- UTF-8 validity of a byte list, as checked by `String::from_utf8`
(encryption.rs line 46). -/
def utf8Valid (l : List Nat) : Bool := utf8Run 0 0 0 l

/-- ASCII decimal digit byte. -/
def isDigitByte (b : Nat) : Bool := 48 ≤ b && b ≤ 57

/-- Value of a decimal digit string (bytes), most significant first. -/
def digitsVal (l : List Nat) : Nat :=
  l.foldl (fun acc d => acc * 10 + (d - 48)) 0

/-- One `u64` past the maximum. -/
def U64_MOD : Nat := 2 ^ 64

/-- Strip the optional leading `+` sign (byte 43) accepted by
`str::parse::<u64>`. -/
def stripPlus : List Nat → List Nat
  | [] => []
  | b :: rest => if b = 43 then rest else b :: rest

/-- Model of `str::parse::<u64>` (encryption.rs line 51) on a byte list: an optional
leading `+` (43), then one or more decimal digits, failing on any other
byte, on the empty digit string, and on overflow past `u64::MAX`. -/
def parseU64 (l : List Nat) : Option Nat :=
  let digits := stripPlus l
  if digits ≠ [] ∧ digits.all isDigitByte ∧ digitsVal digits < U64_MOD then
    some (digitsVal digits)
  else none

/-- Decimal rendering of a natural number as ASCII digit bytes, as produced
by `format!` for a `u64` (encryption.rs line 13). -/
def natToDecimal (n : Nat) : List Nat :=
  if n < 10 then [48 + n]
  else natToDecimal (n / 10) ++ [48 + n % 10]
termination_by n
decreasing_by exact Nat.div_lt_self (by omega) (by omega)

/-- Plaintext with the optional expiry prefix prepended
(encryption.rs lines 7-16): with `Some minutes`, the absolute expiry
`now + minutes * 60` (u64 arithmetic, hence the modulus) is rendered in
decimal, followed by a pipe and the payload. -/
def withExpiry (text : List Nat) (now : Nat) : Option Nat → List Nat
  | some minutes => natToDecimal ((now + minutes * 60) % U64_MOD) ++ pipeByte :: text
  | none => text

/-- Error kinds of `decrypt` (encryption.rs lines 35, 46, 57): base64
failure, invalid UTF-8, and embedded expiry in the past. -/
inductive DecryptError
  | badEncoding
  | badText
  | expired
deriving DecidableEq

/-- Model of `encrypt` (encryption.rs lines 6-28) at clock second `now`: prepend the
optional expiry prefix, XOR with the cycled key, base64-encode. `none`
models the Rust remainder-by-zero panic reached when the key is empty and
there is at least one byte to transform. -/
def encrypt (text key : List Nat) (now : Nat) (expiryMinutes : Option Nat) :
    Option (List Nat) :=
  let twe := withExpiry text now expiryMinutes
  if key = [] ∧ twe ≠ [] then none
  else some (b64encode (xorFrom key 0 twe))

/-- Split at the first pipe byte (`str::find` on a byte index,
encryption.rs line 49): `some (before, after)` when a pipe occurs. -/
def splitPipe : List Nat → Option (List Nat × List Nat)
  | [] => none
  | b :: rest =>
      if b = pipeByte then some ([], rest)
      else (splitPipe rest).map fun p => (b :: p.1, p.2)

/-- Model of `decrypt` (encryption.rs lines 32-65) at clock second `now`:
base64-decode, XOR with the cycled key, check UTF-8; if the text up to the
first pipe parses as a `u64` timestamp, fail `expired` when `now` is past
it and otherwise return the text after the pipe; if there is no pipe or
the prefix does not parse, return the whole text. The outer `none` models
the empty-key panic on a non-empty decoded input. -/
def decrypt (token key : List Nat) (now : Nat) :
    Option (Except DecryptError (List Nat)) :=
  match b64decode token with
  | none => some (Except.error DecryptError.badEncoding)
  | some eb =>
      if key = [] ∧ eb ≠ [] then none
      else
        let db := xorFrom key 0 eb
        if utf8Valid db then
          match splitPipe db with
          | some (pre, post) =>
              match parseU64 pre with
              | some expiry =>
                  if expiry < now then some (Except.error DecryptError.expired)
                  else some (Except.ok post)
              | none => some (Except.ok db)
          | none => some (Except.ok db)
        else some (Except.error DecryptError.badText)

/-! ## Codec lemmas -/

theorem sextetVal_sextetChar : ∀ n < 64, sextetVal (sextetChar n) = some n := by decide

theorem sextetChar_ne_61 : ∀ n < 64, sextetChar n ≠ 61 := by decide

theorem b64decode_b64encode :
    ∀ l : List Nat, (∀ b ∈ l, b < 256) → b64decode (b64encode l) = some l
  | [], _ => rfl
  | [a], h => by
      have ha : a < 256 := h a (by simp)
      have h1 := sextetVal_sextetChar (a / 4) (by omega)
      have h2 := sextetVal_sextetChar (a % 4 * 16) (by omega)
      simp only [b64encode, b64decode, h1, h2]
      have hz : a % 4 * 16 % 16 = 0 := by omega
      simp only [hz]
      norm_num
      omega
  | [a, b], h => by
      have ha : a < 256 := h a (by simp)
      have hb : b < 256 := h b (by simp)
      have h1 := sextetVal_sextetChar (a / 4) (by omega)
      have h2 := sextetVal_sextetChar (a % 4 * 16 + b / 16) (by omega)
      have h3 := sextetVal_sextetChar (b % 16 * 4) (by omega)
      have h3ne := sextetChar_ne_61 (b % 16 * 4) (by omega)
      simp only [b64encode, b64decode, h1, h2, h3, if_neg h3ne]
      have hz : b % 16 * 4 % 4 = 0 := by omega
      simp only [hz]
      norm_num
      omega
  | a :: b :: c :: d :: rest, h => by
      have ha : a < 256 := h a (by simp)
      have hb : b < 256 := h b (by simp)
      have hc : c < 256 := h c (by simp)
      have h1 := sextetVal_sextetChar (a / 4) (by omega)
      have h2 := sextetVal_sextetChar (a % 4 * 16 + b / 16) (by omega)
      have h3 := sextetVal_sextetChar (b % 16 * 4 + c / 64) (by omega)
      have h4 := sextetVal_sextetChar (c % 64) (by omega)
      have h3ne := sextetChar_ne_61 (b % 16 * 4 + c / 64) (by omega)
      have h4ne := sextetChar_ne_61 (c % 64) (by omega)
      have ih := b64decode_b64encode (d :: rest) (fun x hx => h x (by simp at hx ⊢; tauto))
      simp only [b64encode, b64decode, h1, h2, h3, h4, if_neg h3ne, if_neg h4ne, ih]
      have e1 : a / 4 * 4 + (a % 4 * 16 + b / 16) / 16 = a := by omega
      have e2 : (a % 4 * 16 + b / 16) % 16 * 16 + (b % 16 * 4 + c / 64) / 4 = b := by omega
      have e3 : (b % 16 * 4 + c / 64) % 4 * 64 + c % 64 = c := by omega
      simp [e1, e2, e3]
  | [a, b, c], h => by
      have ha : a < 256 := h a (by simp)
      have hb : b < 256 := h b (by simp)
      have hc : c < 256 := h c (by simp)
      have h1 := sextetVal_sextetChar (a / 4) (by omega)
      have h2 := sextetVal_sextetChar (a % 4 * 16 + b / 16) (by omega)
      have h3 := sextetVal_sextetChar (b % 16 * 4 + c / 64) (by omega)
      have h4 := sextetVal_sextetChar (c % 64) (by omega)
      have h3ne := sextetChar_ne_61 (b % 16 * 4 + c / 64) (by omega)
      have h4ne := sextetChar_ne_61 (c % 64) (by omega)
      simp only [b64encode, b64decode, h1, h2, h3, h4, if_neg h3ne, if_neg h4ne]
      have e1 : a / 4 * 4 + (a % 4 * 16 + b / 16) / 16 = a := by omega
      have e2 : (a % 4 * 16 + b / 16) % 16 * 16 + (b % 16 * 4 + c / 64) / 4 = b := by omega
      have e3 : (b % 16 * 4 + c / 64) % 4 * 64 + c % 64 = c := by omega
      simp [e1, e2, e3]

theorem xorFrom_xorFrom (key : List Nat) :
    ∀ (i : Nat) (t : List Nat), xorFrom key i (xorFrom key i t) = t
  | _, [] => rfl
  | i, b :: rest => by
      simp [xorFrom, Nat.xor_assoc, xorFrom_xorFrom key (i + 1) rest]

theorem getD_lt_256 : ∀ (l : List Nat) (j : Nat), (∀ b ∈ l, b < 256) → l.getD j 0 < 256
  | [], j, _ => by simp [List.getD]
  | a :: t, 0, h => by simpa using h a (by simp)
  | a :: t, j + 1, h => by
      simpa using getD_lt_256 t j (fun b hb => h b (by simp [hb]))

theorem xorFrom_lt_256 (key : List Nat) (hk : ∀ b ∈ key, b < 256) :
    ∀ (i : Nat) (t : List Nat), (∀ b ∈ t, b < 256) → ∀ b ∈ xorFrom key i t, b < 256
  | _, [], _ => by simp [xorFrom]
  | i, b :: rest, h => by
      intro x hx
      simp only [xorFrom, List.mem_cons] at hx
      rcases hx with hx | hx
      · subst hx
        exact @Nat.xor_lt_two_pow b _ 8 (h b (by simp)) (getD_lt_256 key _ hk)
      · exact xorFrom_lt_256 key hk (i + 1) rest (fun y hy => h y (by simp [hy])) x hx

theorem splitPipe_append (l r : List Nat) (h : ∀ b ∈ l, b ≠ pipeByte) :
    splitPipe (l ++ pipeByte :: r) = some (l, r) := by
  induction l with
  | nil => simp [splitPipe]
  | cons a t ih =>
      have ha : a ≠ pipeByte := h a (by simp)
      have ih2 := ih (fun b hb => h b (by simp [hb]))
      simp [splitPipe, if_neg ha, ih2]

theorem natToDecimal_digits (n : Nat) : ∀ b ∈ natToDecimal n, 48 ≤ b ∧ b ≤ 57 := by
  induction n using Nat.strong_induction_on with
  | _ n ih =>
    rw [natToDecimal]
    by_cases h : n < 10
    · simp [h]
      omega
    · rw [if_neg h]
      intro b hb
      rcases List.mem_append.mp hb with hb | hb
      · exact ih (n / 10) (Nat.div_lt_self (by omega) (by omega)) b hb
      · simp at hb
        omega

theorem natToDecimal_ne_nil (n : Nat) : natToDecimal n ≠ [] := by
  rw [natToDecimal]
  by_cases h : n < 10
  · simp [h]
  · simp [h]

theorem digitsVal_append_single (l : List Nat) (d : Nat) :
    digitsVal (l ++ [d]) = digitsVal l * 10 + (d - 48) := by
  simp [digitsVal, List.foldl_append]

theorem digitsVal_natToDecimal (n : Nat) : digitsVal (natToDecimal n) = n := by
  induction n using Nat.strong_induction_on with
  | _ n ih =>
    rw [natToDecimal]
    by_cases h : n < 10
    · rw [if_pos h]
      simp only [digitsVal, List.foldl]
      omega
    · rw [if_neg h, digitsVal_append_single,
        ih (n / 10) (Nat.div_lt_self (by omega) (by omega))]
      omega

theorem parseU64_natToDecimal (n : Nat) (h : n < U64_MOD) :
    parseU64 (natToDecimal n) = some n := by
  have hd := natToDecimal_digits n
  have hne := natToDecimal_ne_nil n
  have hv := digitsVal_natToDecimal n
  have hstrip : stripPlus (natToDecimal n) = natToDecimal n := by
    rcases hcons : natToDecimal n with _ | ⟨a, t⟩
    · rfl
    · have ha : 48 ≤ a ∧ a ≤ 57 := hd a (by rw [hcons]; simp)
      unfold stripPlus
      dsimp only
      rw [if_neg (by omega)]
  have hall : (natToDecimal n).all isDigitByte = true := by
    rw [List.all_eq_true]
    intro b hb
    have hb2 := hd b hb
    unfold isDigitByte
    simp only [Bool.and_eq_true, decide_eq_true_eq]
    omega
  unfold parseU64
  rw [hstrip]
  show (if natToDecimal n ≠ [] ∧ (natToDecimal n).all isDigitByte
          ∧ digitsVal (natToDecimal n) < U64_MOD
        then some (digitsVal (natToDecimal n)) else none) = some n
  rw [if_pos ⟨hne, hall, by rw [hv]; exact h⟩, hv]

theorem utf8Valid_ascii_append :
    ∀ (l r : List Nat), (∀ b ∈ l, b < 128) → utf8Valid (l ++ r) = utf8Valid r
  | [], _, _ => rfl
  | a :: t, r, h => by
      have ha : a < 128 := h a (by simp)
      show utf8Run 0 0 0 (a :: (t ++ r)) = _
      rw [utf8Run, if_pos ha]
      exact utf8Valid_ascii_append t r (fun b hb => h b (by simp [hb]))

theorem encrypt_of_key_ne_nil (text key : List Nat) (now : Nat) (em : Option Nat)
    (hk : key ≠ []) :
    encrypt text key now em = some (b64encode (xorFrom key 0 (withExpiry text now em))) := by
  unfold encrypt
  rw [if_neg (fun hc => hk hc.1)]

theorem decrypt_b64encode_xorFrom (plain key : List Nat) (nowD : Nat)
    (hk : key ≠ []) (hkb : ∀ b ∈ key, b < 256) (hpb : ∀ b ∈ plain, b < 256)
    (hutf : utf8Valid plain = true) :
    decrypt (b64encode (xorFrom key 0 plain)) key nowD =
      some (match splitPipe plain with
        | some (pre, post) =>
            match parseU64 pre with
            | some expiry =>
                if expiry < nowD then Except.error DecryptError.expired
                else Except.ok post
            | none => Except.ok plain
        | none => Except.ok plain) := by
  unfold decrypt
  rw [b64decode_b64encode _ (xorFrom_lt_256 key hkb 0 plain hpb)]
  dsimp only
  rw [if_neg (fun hc => hk hc.1)]
  rw [xorFrom_xorFrom, hutf, if_pos rfl]
  rcases splitPipe plain with _ | ⟨pre, post⟩
  · rfl
  · dsimp only
    rcases parseU64 pre with _ | expiry
    · rfl
    · dsimp only
      by_cases he : expiry < nowD
      · rw [if_pos he, if_pos he]
      · rw [if_neg he, if_neg he]

theorem decrypt_encrypt_expiry (text key : List Nat) (nowE nowD m : Nat)
    (hk : key ≠ []) (hkb : ∀ b ∈ key, b < 256) (htb : ∀ b ∈ text, b < 256)
    (hutf : utf8Valid text = true) :
    (encrypt text key nowE (some m)).map (fun tok => decrypt tok key nowD)
      = some (some (if (nowE + m * 60) % U64_MOD < nowD
          then Except.error DecryptError.expired else Except.ok text)) := by
  rw [encrypt_of_key_ne_nil text key nowE (some m) hk]
  have hplain : withExpiry text nowE (some m)
      = natToDecimal ((nowE + m * 60) % U64_MOD) ++ pipeByte :: text := rfl
  have hdig := natToDecimal_digits ((nowE + m * 60) % U64_MOD)
  have hpb : ∀ b ∈ withExpiry text nowE (some m), b < 256 := by
    rw [hplain]
    intro b hb
    rcases List.mem_append.mp hb with hb | hb
    · have := hdig b hb
      omega
    · rcases List.mem_cons.mp hb with hb | hb
      · rw [hb]
        norm_num [pipeByte]
      · exact htb b hb
  have hutf2 : utf8Valid (withExpiry text nowE (some m)) = true := by
    rw [hplain,
      show natToDecimal ((nowE + m * 60) % U64_MOD) ++ pipeByte :: text
          = (natToDecimal ((nowE + m * 60) % U64_MOD) ++ [pipeByte]) ++ text by simp]
    rw [utf8Valid_ascii_append]
    · exact hutf
    · intro b hb
      rcases List.mem_append.mp hb with hb | hb
      · have := hdig b hb
        omega
      · simp at hb
        rw [hb]
        norm_num [pipeByte]
  rw [Option.map_some']
  rw [decrypt_b64encode_xorFrom _ key nowD hk hkb hpb hutf2]
  rw [hplain]
  rw [splitPipe_append _ _ (fun b hb => by have := hdig b hb; norm_num [pipeByte]; omega)]
  dsimp only
  rw [parseU64_natToDecimal _ (Nat.mod_lt _ (by norm_num [U64_MOD]))]

/-! ## Claim C1: token codec round trip without expiry -/

/-- C1 counterexample: the round trip is not the identity for every
plaintext and non-empty key. For the plaintext "1|a" (bytes [49, 124, 97])
and key "k" (byte [107]), decoding the token encoded with no expiry at any
clock second past 1 fails with `expired` instead of returning the
plaintext: `decrypt` misreads the payload's own numeric pipe-prefix as an
embedded expiry timestamp (here at decode second 1000). -/
theorem token_roundtrip_refuted :
    (encrypt [49, 124, 97] [107] 0 none).map (fun tok => decrypt tok [107] 1000)
        = some (some (Except.error DecryptError.expired))
      ∧ (Except.error DecryptError.expired
          ≠ Except.ok ([49, 124, 97] : List Nat)) := by
  refine ⟨rfl, ?_⟩
  simp

/-- C1 (amended): for every plaintext P whose text before the first pipe
(when a pipe occurs at all) does not parse as a u64, and every non-empty
key K, decoding the token produced by encode(P, K, None) with the same key
returns exactly P, at any decode-time clock second. -/
theorem token_roundtrip_no_expiry (text key : List Nat) (nowE nowD : Nat)
    (hk : key ≠ []) (hkb : ∀ b ∈ key, b < 256) (htb : ∀ b ∈ text, b < 256)
    (hutf : utf8Valid text = true)
    (hpre : ∀ pre post, splitPipe text = some (pre, post) → parseU64 pre = none) :
    (encrypt text key nowE none).map (fun tok => decrypt tok key nowD)
      = some (some (Except.ok text)) := by
  rw [encrypt_of_key_ne_nil text key nowE none hk]
  rw [Option.map_some']
  rw [show withExpiry text nowE none = text from rfl]
  rw [decrypt_b64encode_xorFrom text key nowD hk hkb htb hutf]
  rcases hsp : splitPipe text with _ | ⟨pre, post⟩
  · rfl
  · dsimp only
    rw [hpre pre post hsp]

/-- Witness for token_roundtrip_no_expiry: plaintext "hi" ([104, 105]),
key "k" ([107]), encoded at second 3 and decoded at second 99. -/
theorem token_roundtrip_no_expiry_witness :
    (encrypt [104, 105] [107] 3 none).map (fun tok => decrypt tok [107] 99)
      = some (some (Except.ok [104, 105])) :=
  token_roundtrip_no_expiry [104, 105] [107] 3 99 (by decide) (by decide) (by decide)
    (by decide)
    (fun pre post h => by simp [splitPipe, pipeByte] at h)

/-! ## Claim C3: token expiry -/

/-- C3: for every plaintext and non-empty key, the token encoded with
`Some 0` expiry minutes decodes to the `expired` error once the clock has
advanced at least one second past the encode second, and the token encoded
with `Some 60` decodes to the plaintext at the encode second itself. -/
theorem token_expiry_behavior (text key : List Nat) (nowE nowD : Nat)
    (hk : key ≠ []) (hkb : ∀ b ∈ key, b < 256) (htb : ∀ b ∈ text, b < 256)
    (hutf : utf8Valid text = true) (hbound : nowE + 3600 < U64_MOD) :
    (nowE < nowD →
      (encrypt text key nowE (some 0)).map (fun tok => decrypt tok key nowD)
        = some (some (Except.error DecryptError.expired)))
    ∧ (encrypt text key nowE (some 60)).map (fun tok => decrypt tok key nowE)
        = some (some (Except.ok text)) := by
  constructor
  · intro hlt
    rw [decrypt_encrypt_expiry text key nowE nowD 0 hk hkb htb hutf]
    have he : (nowE + 0 * 60) % U64_MOD = nowE := Nat.mod_eq_of_lt (by omega)
    rw [he, if_pos hlt]
  · rw [decrypt_encrypt_expiry text key nowE nowE 60 hk hkb htb hutf]
    have he : (nowE + 60 * 60) % U64_MOD = nowE + 3600 := Nat.mod_eq_of_lt (by omega)
    rw [he, if_neg (by omega)]

/-- Witness for token_expiry_behavior: plaintext "h" ([104]), key "k"
([107]), encoded at second 5, decoded at seconds 6 and 5 respectively. -/
theorem token_expiry_behavior_witness :
    ((encrypt [104] [107] 5 (some 0)).map (fun tok => decrypt tok [107] 6)
        = some (some (Except.error DecryptError.expired)))
    ∧ ((encrypt [104] [107] 5 (some 60)).map (fun tok => decrypt tok [107] 5)
        = some (some (Except.ok [104]))) := by
  have h := token_expiry_behavior [104] [107] 5 6 (by decide) (by decide) (by decide)
    (by decide) (by norm_num [U64_MOD])
  exact ⟨h.1 (by norm_num), h.2⟩

/-! ## Claim C4: empty encryption key handling (config.rs) -/

/-- Model of `env::var(key).unwrap_or_else(default)` as used by config.rs
lines 48-50: the default is substituted only when the variable is absent,
not when it is set to the empty string. -/
def env_str (env : String → Option String) (key dflt : String) : String :=
  (env key).getD dflt

/-- The ENCRYPTION_KEY field of `Settings::from_env` (config.rs line 28):
read with default "overflow" and no validation whatsoever. -/
def settingsEncryptionKey (env : String → Option String) : String :=
  env_str env "ENCRYPTION_KEY" "overflow"

theorem decrypt_ne_none_of_key_ne_nil (tok key : List Nat) (now : Nat)
    (hk : key ≠ []) : decrypt tok key now ≠ none := by
  unfold decrypt
  rcases b64decode tok with _ | eb
  · simp
  · dsimp only
    rw [if_neg (fun hc => hk hc.1)]
    by_cases hu : utf8Valid (xorFrom key 0 eb) = true
    · rw [if_pos hu]
      rcases splitPipe (xorFrom key 0 eb) with _ | ⟨pre, post⟩
      · simp
      · dsimp only
        rcases parseU64 pre with _ | e
        · simp
        · dsimp only
          by_cases he : e < now
          · rw [if_pos he]
            simp
          · rw [if_neg he]
            simp
    · rw [if_neg hu]
      simp

/-- C4 counterexample: an empty encryption key is not rejected at startup,
and the codec does abort at call time because of it. With ENCRYPTION_KEY
set to the empty string, `Settings::from_env` yields the empty key with no
configuration error, and `encrypt` of the one-byte plaintext "h" under the
empty key is the modelled remainder-by-zero panic (`none`). -/
theorem empty_key_not_rejected :
    settingsEncryptionKey (fun k => if k = "ENCRYPTION_KEY" then some "" else none) = ""
      ∧ encrypt [104] [] 0 none = none := by
  exact ⟨rfl, rfl⟩

/-- C4 (amended): `Settings::from_env` substitutes the built-in non-empty
default key "overflow" only when ENCRYPTION_KEY is unset; a set value,
including the empty string, is accepted verbatim with no startup
validation. With any non-empty key, `encrypt` and `decrypt` never abort at
call time; with the empty key they abort (panic) as soon as there is a
byte to transform. -/
theorem encryption_key_startup (env : String → Option String) :
    (env "ENCRYPTION_KEY" = none → settingsEncryptionKey env = "overflow")
    ∧ (∀ s, env "ENCRYPTION_KEY" = some s → settingsEncryptionKey env = s)
    ∧ (∀ text key nowE em, key ≠ [] → encrypt text key nowE em ≠ none)
    ∧ (∀ tok key now, key ≠ [] → decrypt tok key now ≠ none) := by
  refine ⟨?_, ?_, ?_, ?_⟩
  · intro h
    unfold settingsEncryptionKey env_str
    rw [h]
    rfl
  · intro s h
    unfold settingsEncryptionKey env_str
    rw [h]
    rfl
  · intro text key nowE em hkey
    rw [encrypt_of_key_ne_nil _ _ _ _ hkey]
    simp
  · intro tok key now hkey
    exact decrypt_ne_none_of_key_ne_nil tok key now hkey

/-- Witness for encryption_key_startup: the empty environment yields the
default key, and the codec does not abort for the key "k". -/
theorem encryption_key_startup_witness :
    settingsEncryptionKey (fun _ => none) = "overflow"
      ∧ encrypt [104] [107] 0 none ≠ none := by
  have h := encryption_key_startup (fun _ => none)
  exact ⟨h.1 rfl, h.2.2.1 [104] [107] 0 none (by decide)⟩

/-! ## VPN failover controller: serverrs/src/vpn.rs -/

/-- Per-process reconnect state (vpn.rs lines 16-28); the source's `f64`
seconds are modelled as exact rationals. -/
structure VpnReconnectState where
  last_reconnect : ℚ
  attempts : Nat
deriving DecidableEq

/-- vpn.rs line 30. -/
def VPN_RECONNECT_COOLDOWN : ℚ := 30

/-- vpn.rs line 31. -/
def VPN_MAX_RECONNECT_ATTEMPTS : Nat := 3

/-- Environment outcome of one trigger call: building the HTTP client
failed, the PUT failed to send, or it returned a success / non-success
HTTP status. -/
inductive NetOutcome
  | clientBuildErr
  | sendErr
  | httpSuccess
  | httpFailure
deriving DecidableEq

/-- Return value of `trigger_local_vpn_reconnect` (vpn.rs lines 309-371):
`errMaxAttempts` is the `Err(Max VPN reconnect attempts reached)` return,
`cooldownSkip` the cooldown `Ok(false)`, `errClientBuild` and
`errSendFailed` the two `Err` returns around the network call,
`okReconnected` the `Ok(true)` success, `okHttpFailed` the `Ok(false)` on
a non-success status. -/
inductive TriggerResult
  | errMaxAttempts
  | cooldownSkip
  | errClientBuild
  | errSendFailed
  | okReconnected
  | okHttpFailed
deriving DecidableEq

/-- Observable effect of one controller step: resulting state, returned
value, whether the reconnect PUT was dispatched to the network, and the
backoff delay in seconds slept before acting. -/
structure TriggerStep where
  state : VpnReconnectState
  result : TriggerResult
  dispatched : Bool
  backoffDelay : Nat
deriving DecidableEq

/-- Model of `trigger_local_vpn_reconnect` (vpn.rs lines 309-371) as a sequential
step function: guard on the attempt ceiling, then on the cooldown; record
`last_reconnect = now` and increment `attempts` before any network work;
compute the backoff `min(5 * (1 << (attempt - 1)), 20)` and sleep it only
when `attempt > 1`; issue the PUT and reset `attempts` to 0 only on a
success status (failures leave the incremented counter in place). -/
def trigger_local_vpn_reconnect (st : VpnReconnectState) (now : ℚ)
    (net : NetOutcome) : TriggerStep :=
  if VPN_MAX_RECONNECT_ATTEMPTS ≤ st.attempts then
    ⟨st, TriggerResult.errMaxAttempts, false, 0⟩
  else if now - st.last_reconnect < VPN_RECONNECT_COOLDOWN then
    ⟨st, TriggerResult.cooldownSkip, false, 0⟩
  else
    let attempt := st.attempts + 1
    let backoff := min (5 * 2 ^ (attempt - 1)) 20
    let delay := if 1 < attempt then backoff else 0
    match net with
    | NetOutcome.clientBuildErr =>
        ⟨⟨now, attempt⟩, TriggerResult.errClientBuild, false, delay⟩
    | NetOutcome.sendErr =>
        ⟨⟨now, attempt⟩, TriggerResult.errSendFailed, true, delay⟩
    | NetOutcome.httpSuccess =>
        ⟨⟨now, 0⟩, TriggerResult.okReconnected, true, delay⟩
    | NetOutcome.httpFailure =>
        ⟨⟨now, attempt⟩, TriggerResult.okHttpFailed, true, delay⟩

/-- Fold a sequence of block signals through the controller. -/
def runTriggers (st : VpnReconnectState) : List (ℚ × NetOutcome) → VpnReconnectState
  | [] => st
  | (now, net) :: rest => runTriggers (trigger_local_vpn_reconnect st now net).state rest

/-- State at process start (vpn.rs lines 21-28). -/
def initialVpnState : VpnReconnectState := ⟨0, 0⟩

theorem trigger_attempts_le (st : VpnReconnectState) (now : ℚ) (net : NetOutcome)
    (h : st.attempts ≤ VPN_MAX_RECONNECT_ATTEMPTS) :
    (trigger_local_vpn_reconnect st now net).state.attempts
      ≤ VPN_MAX_RECONNECT_ATTEMPTS := by
  unfold trigger_local_vpn_reconnect
  by_cases h1 : VPN_MAX_RECONNECT_ATTEMPTS ≤ st.attempts
  · rw [if_pos h1]
    exact h
  · rw [if_neg h1]
    by_cases h2 : now - st.last_reconnect < VPN_RECONNECT_COOLDOWN
    · rw [if_pos h2]
      exact h
    · rw [if_neg h2]
      cases net <;> dsimp only <;> omega

theorem runTriggers_attempts_le (sigs : List (ℚ × NetOutcome)) :
    ∀ st : VpnReconnectState, st.attempts ≤ VPN_MAX_RECONNECT_ATTEMPTS →
      (runTriggers st sigs).attempts ≤ VPN_MAX_RECONNECT_ATTEMPTS := by
  induction sigs with
  | nil => exact fun st h => h
  | cons p rest ih =>
      intro st h
      rcases p with ⟨now, net⟩
      exact ih _ (trigger_attempts_le st now net h)

theorem trigger_no_dispatch_within_cooldown (st : VpnReconnectState) (now : ℚ)
    (net : NetOutcome) (h : now - st.last_reconnect < VPN_RECONNECT_COOLDOWN) :
    (trigger_local_vpn_reconnect st now net).dispatched = false
    ∧ (trigger_local_vpn_reconnect st now net).state = st := by
  unfold trigger_local_vpn_reconnect
  by_cases h1 : VPN_MAX_RECONNECT_ATTEMPTS ≤ st.attempts
  · rw [if_pos h1]
    exact ⟨rfl, rfl⟩
  · rw [if_neg h1, if_pos h]
    exact ⟨rfl, rfl⟩

theorem trigger_dispatch_state (st : VpnReconnectState) (now : ℚ) (net : NetOutcome)
    (hceil : st.attempts < VPN_MAX_RECONNECT_ATTEMPTS)
    (hcool : VPN_RECONNECT_COOLDOWN ≤ now - st.last_reconnect) :
    (trigger_local_vpn_reconnect st now net).state.last_reconnect = now
    ∧ (net ≠ NetOutcome.clientBuildErr →
        (trigger_local_vpn_reconnect st now net).dispatched = true) := by
  unfold trigger_local_vpn_reconnect
  rw [if_neg (not_le.mpr hceil), if_neg (not_lt.mpr hcool)]
  cases net with
  | clientBuildErr => exact ⟨rfl, fun hne => absurd rfl hne⟩
  | sendErr => exact ⟨rfl, fun _ => rfl⟩
  | httpSuccess => exact ⟨rfl, fun _ => rfl⟩
  | httpFailure => exact ⟨rfl, fun _ => rfl⟩

/-! ## Claim C2: VPN controller invariants -/

/-- C2: driving any sequence of block signals from the initial state keeps
the attempts counter at or below the ceiling 3; the counter drops to 0
only from an already-zero counter or on a confirmed success; a failed call
(send error or non-success status) leaves the incremented counter in
place; a signal at the ceiling returns the distinct max-attempts error
without dispatching any network call and without touching the state; and
of two signals within the 30-second cooldown window only the first
dispatches the reconnect PUT while the second leaves the state unchanged
and dispatches nothing. -/
theorem vpn_controller_invariants :
    (∀ sigs, (runTriggers initialVpnState sigs).attempts ≤ VPN_MAX_RECONNECT_ATTEMPTS)
    ∧ (∀ (st : VpnReconnectState) (now : ℚ) (net : NetOutcome),
        (trigger_local_vpn_reconnect st now net).state.attempts = 0 →
          st.attempts = 0 ∨ net = NetOutcome.httpSuccess)
    ∧ (∀ (st : VpnReconnectState) (now : ℚ) (net : NetOutcome),
        st.attempts < VPN_MAX_RECONNECT_ATTEMPTS →
        VPN_RECONNECT_COOLDOWN ≤ now - st.last_reconnect →
        (net = NetOutcome.sendErr ∨ net = NetOutcome.httpFailure) →
        (trigger_local_vpn_reconnect st now net).state.attempts = st.attempts + 1)
    ∧ (∀ (st : VpnReconnectState) (now : ℚ) (net : NetOutcome),
        VPN_MAX_RECONNECT_ATTEMPTS ≤ st.attempts →
        trigger_local_vpn_reconnect st now net
          = ⟨st, TriggerResult.errMaxAttempts, false, 0⟩)
    ∧ (∀ (st : VpnReconnectState) (now1 now2 : ℚ) (net1 net2 : NetOutcome),
        st.attempts < VPN_MAX_RECONNECT_ATTEMPTS →
        VPN_RECONNECT_COOLDOWN ≤ now1 - st.last_reconnect →
        net1 ≠ NetOutcome.clientBuildErr →
        now2 - now1 < VPN_RECONNECT_COOLDOWN →
        (trigger_local_vpn_reconnect st now1 net1).dispatched = true
        ∧ (trigger_local_vpn_reconnect
            (trigger_local_vpn_reconnect st now1 net1).state now2 net2).dispatched = false
        ∧ (trigger_local_vpn_reconnect
            (trigger_local_vpn_reconnect st now1 net1).state now2 net2).state
          = (trigger_local_vpn_reconnect st now1 net1).state) := by
  refine ⟨?_, ?_, ?_, ?_, ?_⟩
  · intro sigs
    exact runTriggers_attempts_le sigs initialVpnState (by norm_num [initialVpnState])
  · intro st now net h0
    unfold trigger_local_vpn_reconnect at h0
    by_cases h1 : VPN_MAX_RECONNECT_ATTEMPTS ≤ st.attempts
    · rw [if_pos h1] at h0
      exact Or.inl h0
    · rw [if_neg h1] at h0
      by_cases h2 : now - st.last_reconnect < VPN_RECONNECT_COOLDOWN
      · rw [if_pos h2] at h0
        exact Or.inl h0
      · rw [if_neg h2] at h0
        cases net with
        | clientBuildErr => dsimp only at h0; omega
        | sendErr => dsimp only at h0; omega
        | httpSuccess => exact Or.inr rfl
        | httpFailure => dsimp only at h0; omega
  · intro st now net hceil hcool hnet
    unfold trigger_local_vpn_reconnect
    rw [if_neg (not_le.mpr hceil), if_neg (not_lt.mpr hcool)]
    rcases hnet with h | h <;> rw [h]
  · intro st now net hceil
    unfold trigger_local_vpn_reconnect
    rw [if_pos hceil]
  · intro st now1 now2 net1 net2 hceil hcool hnet hwin
    obtain ⟨hlast, hdisp⟩ := trigger_dispatch_state st now1 net1 hceil hcool
    have hwin2 : now2 - (trigger_local_vpn_reconnect st now1 net1).state.last_reconnect
        < VPN_RECONNECT_COOLDOWN := by
      rw [hlast]
      exact hwin
    obtain ⟨hd2, hs2⟩ :=
      trigger_no_dispatch_within_cooldown
        (trigger_local_vpn_reconnect st now1 net1).state now2 net2 hwin2
    exact ⟨hdisp hnet, hd2, hs2⟩

/-- Witness for vpn_controller_invariants: two failing signals from the
initial state; a failure at `attempts = 1` increments to 2; a signal at
the ceiling is the bare max-attempts error; a dispatched failure at second
40 followed by a signal at second 50 swallows the second. -/
theorem vpn_controller_invariants_witness :
    (runTriggers initialVpnState
        [(100, NetOutcome.httpFailure), (105, NetOutcome.httpFailure)]).attempts
      ≤ VPN_MAX_RECONNECT_ATTEMPTS
    ∧ (trigger_local_vpn_reconnect ⟨0, 1⟩ 40 NetOutcome.httpFailure).state.attempts = 1 + 1
    ∧ trigger_local_vpn_reconnect ⟨0, 3⟩ 40 NetOutcome.httpFailure
        = ⟨⟨0, 3⟩, TriggerResult.errMaxAttempts, false, 0⟩
    ∧ (trigger_local_vpn_reconnect ⟨0, 0⟩ 40 NetOutcome.httpFailure).dispatched = true
    ∧ (trigger_local_vpn_reconnect
        (trigger_local_vpn_reconnect ⟨0, 0⟩ 40 NetOutcome.httpFailure).state
        50 NetOutcome.httpFailure).dispatched = false := by
  have h := vpn_controller_invariants
  have hpair := h.2.2.2.2 ⟨0, 0⟩ 40 50 NetOutcome.httpFailure NetOutcome.httpFailure
    (by norm_num [VPN_MAX_RECONNECT_ATTEMPTS])
    (by show VPN_RECONNECT_COOLDOWN ≤ 40 - 0; norm_num [VPN_RECONNECT_COOLDOWN])
    (by simp)
    (by show (50 : ℚ) - 40 < VPN_RECONNECT_COOLDOWN; norm_num [VPN_RECONNECT_COOLDOWN])
  refine ⟨h.1 _, ?_, ?_, hpair.1, hpair.2.1⟩
  · exact h.2.2.1 ⟨0, 1⟩ 40 NetOutcome.httpFailure
      (by norm_num [VPN_MAX_RECONNECT_ATTEMPTS])
      (by show VPN_RECONNECT_COOLDOWN ≤ 40 - 0; norm_num [VPN_RECONNECT_COOLDOWN])
      (Or.inr rfl)
  · exact h.2.2.2.1 ⟨0, 3⟩ 40 NetOutcome.httpFailure
      (by norm_num [VPN_MAX_RECONNECT_ATTEMPTS])

/-! ## Claim C9: VPN reconnect backoff -/

/-- C9: when a signal passes both guards, the backoff delay slept before
the reconnect PUT for attempt number n (the incremented counter) is
`min(5 * 2^(n-1), 20)` seconds and is applied only from the second attempt
onward; the first attempt fires immediately with no delay. -/
theorem vpn_backoff_delay (st : VpnReconnectState) (now : ℚ) (net : NetOutcome)
    (n : Nat) (hceil : st.attempts < VPN_MAX_RECONNECT_ATTEMPTS)
    (hcool : VPN_RECONNECT_COOLDOWN ≤ now - st.last_reconnect)
    (hn : n = st.attempts + 1) :
    (trigger_local_vpn_reconnect st now net).backoffDelay
      = if 2 ≤ n then min (5 * 2 ^ (n - 1)) 20 else 0 := by
  subst hn
  unfold trigger_local_vpn_reconnect
  rw [if_neg (not_le.mpr hceil), if_neg (not_lt.mpr hcool)]
  cases net <;> rfl

/-- Witness for vpn_backoff_delay: second attempt (counter at 1) at second
40 sleeps `min(5 * 2, 20) = 10` seconds. -/
theorem vpn_backoff_delay_witness :
    (trigger_local_vpn_reconnect ⟨0, 1⟩ 40 NetOutcome.httpFailure).backoffDelay
      = if 2 ≤ 2 then min (5 * 2 ^ (2 - 1)) 20 else 0 :=
  vpn_backoff_delay ⟨0, 1⟩ 40 NetOutcome.httpFailure 2
    (by norm_num [VPN_MAX_RECONNECT_ATTEMPTS])
    (by show VPN_RECONNECT_COOLDOWN ≤ 40 - 0; norm_num [VPN_RECONNECT_COOLDOWN])
    rfl

/-! ## Streaming proxy status handling -/

/-- Model of `http::StatusCode::is_success`: the 2xx range. -/
def isSuccessStatus (s : Nat) : Bool := 200 ≤ s && s < 300

/-- Client-visible shape of a proxied response reduced to what the
status-handling contract speaks about: the HTTP status returned to the
client, the upstream status quoted in the error body (if any), and whether
the upstream body is relayed. Header details and the streamed bytes
themselves are elided. -/
structure ProxyResponse where
  clientStatus : Nat
  upstreamStatusReported : Option Nat
  relaysUpstreamBody : Bool
deriving DecidableEq

/-- Model of `stream_from_cdn` (serverrs stream.rs lines 195-262) after the GET,
as a function of the upstream outcome (`none` = send error, `some s` =
response with status `s`): a send error is 502 "CDN request failed"; a
non-success status is 502 "CDN returned status s", dropping the body; a
success is relayed as 200 with the upstream body streamed. -/
def stream_from_cdn (upstream : Option Nat) : ProxyResponse :=
  match upstream with
  | none => ⟨502, none, false⟩
  | some s => if isSuccessStatus s then ⟨200, none, true⟩ else ⟨502, some s, false⟩

/-- The session-addressed `stream` handler of serverx-rs (main.rs lines
1132-1184) after `request.send()`: a send error is 502 DOWNLOAD_ERROR,
but a received response's status is never inspected — its body is
streamed back to the client with status 200 regardless. -/
def serverxStreamRelay (upstream : Option Nat) : ProxyResponse :=
  match upstream with
  | none => ⟨502, none, false⟩
  | some _ => ⟨200, none, true⟩

/-! ## Claim C5: upstream non-success handling -/

/-- C5 counterexample: not every proxied stream request fails on a
non-success upstream status. The serverx-rs session stream handler never
checks the status: an upstream 403 is relayed as a 200 success with the
upstream body, and no upstream status is reported. -/
theorem upstream_status_not_checked :
    serverxStreamRelay (some 403) = ⟨200, none, true⟩
      ∧ isSuccessStatus 403 = false := by
  exact ⟨rfl, rfl⟩

/-- C5 (amended): in the serverrs proxy (`stream_from_cdn`, backing both
the token-addressed /download and /stream), a non-success upstream status
yields a 502 bad-gateway error carrying the upstream status and no body is
relayed; the serverx-rs session-addressed stream handler instead performs
no status check and relays the body of any received response as 200. -/
theorem upstream_status_handling (s : Nat) (h : isSuccessStatus s = false) :
    stream_from_cdn (some s) = ⟨502, some s, false⟩
    ∧ stream_from_cdn none = ⟨502, none, false⟩
    ∧ serverxStreamRelay (some s) = ⟨200, none, true⟩ := by
  refine ⟨?_, rfl, rfl⟩
  unfold stream_from_cdn
  dsimp only
  rw [if_neg]
  rw [h]
  exact Bool.false_ne_true

/-- Witness for upstream_status_handling at upstream status 403. -/
theorem upstream_status_handling_witness :
    stream_from_cdn (some 403) = ⟨502, some 403, false⟩
    ∧ stream_from_cdn none = ⟨502, none, false⟩
    ∧ serverxStreamRelay (some 403) = ⟨200, none, true⟩ :=
  upstream_status_handling 403 rfl

/-! ## Claim C6: cache failure policy -/

/-- Model of `RedisCache::get_metadata` (serverrs cache.rs lines 32-49) as a
function of the store call's result: a hit is returned, a miss is `none`,
and a store error is logged and collapsed to `none`, indistinguishable
from a miss. -/
def get_metadata (storeResult : Except String (Option String)) : Option String :=
  match storeResult with
  | Except.ok (some cached) => some cached
  | Except.ok none => none
  | Except.error _ => none

/-- Model of `RedisCache::set_metadata` (serverrs cache.rs lines 51-65): a set
error is logged only; the function returns unit either way and propagates
nothing to the caller. -/
def set_metadata (storeResult : Except String Unit) : Unit :=
  match storeResult with
  | Except.ok _ => ()
  | Except.error _ => ()

/-- Session fetch of the serverx-rs stream handler (main.rs lines
1024-1033): a Redis error is logged and collapsed to `none`, the same
shape as an absent or expired session. -/
def streamSessionLookup {α : Type} (storeResult : Except String (Option α)) :
    Option α :=
  match storeResult with
  | Except.ok d => d
  | Except.error _ => none

/-- Session store step of the serverx-rs download handler (main.rs lines
920-936): the response status and error code seen by the caller as a
function of the store call's result. -/
def downloadSessionStoreResponse (storeResult : Except String String) :
    Nat × Option String :=
  match storeResult with
  | Except.ok _ => (200, none)
  | Except.error _ => (500, some "REDIS_ERROR")

/-- C6 counterexample: one cited path does propagate a storage failure as
a fatal user-facing error: when storing the session format map fails in
the serverx-rs download handler, the caller receives HTTP 500 with error
code REDIS_ERROR instead of a non-fatal "not cached" treatment. -/
theorem cache_failure_propagated :
    downloadSessionStoreResponse (Except.error "connection refused")
        = (500, some "REDIS_ERROR")
      ∧ (500 : Nat) ≠ 200 := by
  exact ⟨rfl, by norm_num⟩

/-- C6 (amended): the serverrs metadata cache absorbs store failures —
get collapses an error to the uniform miss and set returns unit either
way — and the serverx-rs session read likewise treats a store error as a
miss; but a failure of the session store write in the serverx-rs download
handler is returned to the caller as a fatal HTTP 500 REDIS_ERROR. -/
theorem cache_failure_policy :
    (∀ e, get_metadata (Except.error e) = none)
    ∧ get_metadata (Except.ok none) = none
    ∧ (∀ e r, set_metadata (Except.error e) = set_metadata (Except.ok r))
    ∧ (∀ (α : Type) (e : String), streamSessionLookup (Except.error e) = (none : Option α))
    ∧ (∀ e, downloadSessionStoreResponse (Except.error e) = (500, some "REDIS_ERROR")) := by
  exact ⟨fun _ => rfl, rfl, fun _ _ => rfl, fun _ _ => rfl, fun _ => rfl⟩

/-! ## Session format resolution: serverx-rs main.rs -/

/-- Stored per-format descriptor of a session (main.rs lines 371-378);
the header map is modelled as an association list. -/
structure FormatInfo where
  url : String
  http_headers : List (String × String)
  quality : String
  resolution : String
  content_type : String
deriving DecidableEq

/-- Model of `str::starts_with` on strings, evaluated on the underlying character
lists. -/
def strStarts (s p : String) : Bool := List.isPrefixOf p.data s.data

/-- Format selection of the serverx-rs stream handler (main.rs lines
1051-1075): "best" takes the first descriptor with a non-empty resolution
other than "audio only"; "best_audio" the first with resolution exactly
"audio only"; "best_image" the first whose content type starts with
"image/"; any other value is an exact lookup by format id. The hash map is
modelled as an association list in iteration order. -/
def selectFormat (formats : List (String × FormatInfo)) (format_id : String) :
    Option FormatInfo :=
  if format_id = "best" then
    (formats.map Prod.snd).find? fun f =>
      !(f.resolution == "") && !(f.resolution == "audio only")
  else if format_id = "best_audio" then
    (formats.map Prod.snd).find? fun f => f.resolution == "audio only"
  else if format_id = "best_image" then
    (formats.map Prod.snd).find? fun f => strStarts f.content_type "image/"
  else
    formats.lookup format_id

/-- Wrapping of the selection result (main.rs lines 1077-1091): a missing
descriptor becomes the 400 FORMAT_NOT_FOUND error response. -/
def resolveFormat (formats : List (String × FormatInfo)) (format_id : String) :
    Except String FormatInfo :=
  match selectFormat formats format_id with
  | some f => Except.ok f
  | none => Except.error "FORMAT_NOT_FOUND"

/-! ## Claim C7: format resolution -/

/-- C7: for a session map holding exactly one audio-only descriptor and
one 720p descriptor (in either iteration order), "best" resolves the 720p
descriptor and "best_audio" the audio one; "best_image" only ever resolves
a descriptor whose content type starts with "image/"; any other value is
an exact format-id lookup; and an id absent from the map yields the
FORMAT_NOT_FOUND error. -/
theorem format_resolution (ia iv : String) (fa fv : FormatInfo)
    (formats : List (String × FormatInfo))
    (horder : formats = [(ia, fa), (iv, fv)] ∨ formats = [(iv, fv), (ia, fa)])
    (hfa : fa.resolution = "audio only") (hfv : fv.resolution = "720p") :
    resolveFormat formats "best" = Except.ok fv
    ∧ resolveFormat formats "best_audio" = Except.ok fa
    ∧ (∀ f, resolveFormat formats "best_image" = Except.ok f →
        strStarts f.content_type "image/" = true)
    ∧ (∀ fid, fid ≠ "best" → fid ≠ "best_audio" → fid ≠ "best_image" →
        selectFormat formats fid = formats.lookup fid)
    ∧ (∀ fid, fid ≠ "best" → fid ≠ "best_audio" → fid ≠ "best_image" →
        fid ≠ ia → fid ≠ iv →
        resolveFormat formats fid = Except.error "FORMAT_NOT_FOUND") := by
  refine ⟨?_, ?_, ?_, ?_, ?_⟩
  · rcases horder with ho | ho <;> subst ho <;>
      simp [resolveFormat, selectFormat, List.find?, hfa, hfv]
  · rcases horder with ho | ho <;> subst ho <;>
      simp [resolveFormat, selectFormat, List.find?, hfa, hfv]
  · have hsel : selectFormat formats "best_image"
        = (formats.map Prod.snd).find? (fun f => strStarts f.content_type "image/") := by
      unfold selectFormat
      rw [if_neg (by decide), if_neg (by decide), if_pos rfl]
    intro f hf
    unfold resolveFormat at hf
    split at hf
    · next g heq =>
        injection hf with hgf
        rw [hsel] at heq
        have hg := List.find?_some heq
        rw [← hgf]
        exact hg
    · next heq => simp at hf
  · intro fid h1 h2 h3
    unfold selectFormat
    rw [if_neg h1, if_neg h2, if_neg h3]
  · intro fid h1 h2 h3 h4 h5
    have hsel : selectFormat formats fid = formats.lookup fid := by
      unfold selectFormat
      rw [if_neg h1, if_neg h2, if_neg h3]
    unfold resolveFormat
    rw [hsel]
    rcases horder with ho | ho <;> subst ho <;>
      simp [List.lookup, beq_eq_false_iff_ne.mpr h4, beq_eq_false_iff_ne.mpr h5]

/-- Witness for format_resolution: ids "140" (audio only) and "22"
(720p); the unknown id "18" is an exact lookup and not found. -/
theorem format_resolution_witness :
    resolveFormat [("140", ⟨"ua", [], "128kbps", "audio only", "audio/mp4"⟩),
        ("22", ⟨"uv", [], "720p", "720p", "video/mp4"⟩)] "best"
      = Except.ok ⟨"uv", [], "720p", "720p", "video/mp4"⟩
    ∧ resolveFormat [("140", ⟨"ua", [], "128kbps", "audio only", "audio/mp4"⟩),
        ("22", ⟨"uv", [], "720p", "720p", "video/mp4"⟩)] "best_audio"
      = Except.ok ⟨"ua", [], "128kbps", "audio only", "audio/mp4"⟩
    ∧ resolveFormat [("140", ⟨"ua", [], "128kbps", "audio only", "audio/mp4"⟩),
        ("22", ⟨"uv", [], "720p", "720p", "video/mp4"⟩)] "18"
      = Except.error "FORMAT_NOT_FOUND" := by
  have h := format_resolution "140" "22"
    ⟨"ua", [], "128kbps", "audio only", "audio/mp4"⟩
    ⟨"uv", [], "720p", "720p", "video/mp4"⟩
    [("140", ⟨"ua", [], "128kbps", "audio only", "audio/mp4"⟩),
      ("22", ⟨"uv", [], "720p", "720p", "video/mp4"⟩)]
    (Or.inl rfl) rfl rfl
  exact ⟨h.1, h.2.1,
    h.2.2.2.2 "18" (by decide) (by decide) (by decide) (by decide) (by decide)⟩

/-! ## Claim C8: download endpoint content types -/

/-- Model of `content_type_info` (serverrs stream.rs lines 18-25): content type and
file extension chosen from the decoded token's `type` field by the
token-addressed download endpoint (`download_handler`, lines 37-95). -/
def content_type_info (file_type : String) : String × String :=
  if file_type = "mp3" then ("audio/mpeg", "mp3")
  else if file_type = "video" then ("video/mp4", "mp4")
  else if file_type = "image" then ("image/jpeg", "jpg")
  else ("application/octet-stream", "bin")

/-- C8 counterexample: at the token-addressed download endpoint the type
value "audio" is not mapped to audio/mpeg: `content_type_info` has no
"audio" arm, so it falls through to application/octet-stream. (The
"mp3"/"audio" equivalence exists only in the separate stream_handler.) -/
theorem download_audio_type_octet_stream :
    content_type_info "audio" = ("application/octet-stream", "bin")
      ∧ "application/octet-stream" ≠ "audio/mpeg" := by
  exact ⟨rfl, by decide⟩

/-- C8 (amended): the download endpoint maps "video" to video/mp4, "mp3"
to audio/mpeg, "image" to image/jpeg, and every other type value —
including "audio" — to application/octet-stream. -/
theorem download_content_type_mapping :
    content_type_info "video" = ("video/mp4", "mp4")
    ∧ content_type_info "mp3" = ("audio/mpeg", "mp3")
    ∧ content_type_info "image" = ("image/jpeg", "jpg")
    ∧ (∀ t, t ≠ "mp3" → t ≠ "video" → t ≠ "image" →
        content_type_info t = ("application/octet-stream", "bin")) := by
  refine ⟨rfl, rfl, rfl, ?_⟩
  intro t h1 h2 h3
  unfold content_type_info
  rw [if_neg h1, if_neg h2, if_neg h3]

/-- Witness for download_content_type_mapping at the type value "gif". -/
theorem download_content_type_mapping_witness :
    content_type_info "gif" = ("application/octet-stream", "bin") :=
  download_content_type_mapping.2.2.2 "gif" (by decide) (by decide) (by decide)

/-! ## Claim C10: cookie handling of the session stream request -/

/-- ASCII lowercasing of a string, as `str::to_lowercase` behaves on the
ASCII header names involved. -/
def lowerAscii (s : String) : String := String.mk (s.data.map Char.toLower)

/-- Upstream request headers built by the serverx-rs stream handler
(main.rs lines 1114-1129): every stored descriptor header whose name is
not "cookie" case-insensitively, then the forced
`Accept-Encoding: identity`, then a `Cookie` header exactly when the
session record carries a cookie string. -/
def buildUpstreamHeaders (fi : FormatInfo) (cookies : Option String) :
    List (String × String) :=
  (fi.http_headers.filter fun kv => !(lowerAscii kv.1 == "cookie"))
    ++ [("Accept-Encoding", "identity")]
    ++ (match cookies with
        | some c => [("Cookie", c)]
        | none => [])

/-- C10: no header of the stored descriptor map whose name is "cookie"
case-insensitively is ever forwarded upstream — any cookie-named header in
the built request comes from the session record, is literally "Cookie",
and carries the session's cookie string; a Cookie header is present
exactly when the session record carries a cookie string, with exactly that
value; with no session cookie, no cookie-named header is sent at all. -/
theorem cookie_header_policy (fi : FormatInfo) (cookies : Option String) :
    (∀ kv ∈ buildUpstreamHeaders fi cookies, lowerAscii kv.1 = "cookie" →
        kv.1 = "Cookie" ∧ cookies = some kv.2)
    ∧ (∀ c, cookies = some c → ("Cookie", c) ∈ buildUpstreamHeaders fi cookies)
    ∧ (cookies = none → ∀ kv ∈ buildUpstreamHeaders fi cookies,
        lowerAscii kv.1 ≠ "cookie") := by
  refine ⟨?_, ?_, ?_⟩
  · intro kv hkv hlow
    unfold buildUpstreamHeaders at hkv
    rcases List.mem_append.mp hkv with hkv | hkv
    · rcases List.mem_append.mp hkv with hkv | hkv
      · have hpred := List.of_mem_filter hkv
        rw [hlow] at hpred
        simp at hpred
      · simp at hkv
        subst hkv
        exact absurd hlow (by decide)
    · rcases hc : cookies with _ | c
      · rw [hc] at hkv
        simp at hkv
      · rw [hc] at hkv
        simp at hkv
        subst hkv
        exact ⟨rfl, rfl⟩
  · intro c hc
    unfold buildUpstreamHeaders
    rw [hc]
    simp
  · intro hc kv hkv hlow
    unfold buildUpstreamHeaders at hkv
    rw [hc] at hkv
    rcases List.mem_append.mp hkv with hkv | hkv
    · rcases List.mem_append.mp hkv with hkv | hkv
      · have hpred := List.of_mem_filter hkv
        rw [hlow] at hpred
        simp at hpred
      · simp at hkv
        subst hkv
        exact absurd hlow (by decide)
    · simp at hkv

/-- Witness for cookie_header_policy: a descriptor carrying a stored
cookie header and a session cookie "sid=1"; the session cookie is
attached. -/
theorem cookie_header_policy_witness :
    ("Cookie", "sid=1") ∈ buildUpstreamHeaders
      ⟨"u", [("Cookie", "stored"), ("Referer", "r")], "720p", "720p", "video/mp4"⟩
      (some "sid=1") :=
  (cookie_header_policy
    ⟨"u", [("Cookie", "stored"), ("Referer", "r")], "720p", "720p", "video/mp4"⟩
    (some "sid=1")).2.1 "sid=1" rfl

end YtGateway
